import Mathlib

/-!
Shallow embedding of the SolarTrack Pro forecasting module
(`calculateForecast`, `getPercentComplete`, `getProductionStats`).

Modelling conventions:
* JS `number` values carrying counts, rates and percentages are modelled
  as exact rationals (`ℚ`).
* `Date` values are modelled by their UTC millisecond timestamps (`ℤ`);
  the runtime is assumed to be in the UTC timezone, so `setDate(d + n)`
  is adding `n * 86400000` ms and `toISOString().split('T')[0]` is the
  calendar day index `t / 86400000` (floored).  An ISO day string is
  represented by that day index (the two are in bijection, and the code
  only ever compares the strings for equality).
* `Math.ceil(x / y)` applied to integer-valued millisecond differences is
  modelled by an exact integer ceiling division.
* The clock read `new Date()` is made explicit: `today` is a parameter.
-/

/-- Milliseconds in a day, the constant `1000 * 60 * 60 * 24` of the source. -/
def msPerDay : ℤ := 86400000

/-- Exact model of `Math.ceil(a / b)` for integer operands and `b > 0`:
ceiling division via Euclidean (floor) division. -/
def ceilIntDiv (a b : ℤ) : ℤ := -((-a).ediv b)

/-- The `Project` interface of the source (plan targets and dates). -/
structure Project where
  id : String
  name : String
  totalPiles : ℚ
  totalRackingTables : ℚ
  totalModules : ℚ
  plannedStartDate : ℤ
  plannedEndDate : ℤ
  plannedPilesPerDay : ℚ
  plannedRackingPerDay : ℚ
  plannedModulesPerDay : ℚ
deriving DecidableEq

/-- The `ProductionEntry` interface of the source. -/
structure ProductionEntry where
  date : ℤ
  piles : ℚ
  rackingTables : ℚ
  modules : ℚ
deriving DecidableEq

/-- The `'green' | 'yellow' | 'red'` schedule-health literal type. -/
inductive Health
  | green
  | yellow
  | red
deriving DecidableEq

/-- A per-category triple `{piles, racking, modules}`. -/
structure Tally where
  piles : ℚ
  racking : ℚ
  modules : ℚ
deriving DecidableEq

/-- The `ForecastResult` interface of the source.  `dates` holds calendar
day indices standing for the ISO day strings pushed by the source. -/
structure ForecastResult where
  plannedProgress : List ℚ
  actualProgress : List ℚ
  dates : List ℤ
  projectedCompletionDate : Option ℤ
  daysVariance : ℤ
  scheduleHealth : Health
  remainingWork : Tally
  averageDailyProduction : Tally
deriving DecidableEq

/-- Calendar day index of a timestamp: the date part of `toISOString()`. -/
def dayOf (t : ℤ) : ℤ := t.ediv msPerDay

/-- Stable insertion of an entry into a date-sorted list (helper for the
model of `Array.prototype.sort`, which is stable). -/
def insertByDate (e : ProductionEntry) : List ProductionEntry → List ProductionEntry
  | [] => [e]
  | f :: rest => if e.date ≤ f.date then e :: f :: rest else f :: insertByDate e rest

/-- Model of `[...productionEntries].sort((a, b) => a.date - b.date)`:
a stable sort ascending by date. -/
def sortByDate : List ProductionEntry → List ProductionEntry
  | [] => []
  | e :: rest => insertByDate e (sortByDate rest)

/-- Model of `list.reduce((sum, e) => sum + f(e), 0)`. -/
def sumBy (f : ProductionEntry → ℚ) (es : List ProductionEntry) : ℚ :=
  es.foldl (fun s e => s + f e) 0

/-- The source's `totalDays = Math.max(1, Math.ceil((endDate - startDate) / msPerDay))`. -/
def totalDaysOf (p : Project) : ℤ :=
  max 1 (ceilIntDiv (p.plannedEndDate - p.plannedStartDate) msPerDay)

/-- The source's `daysElapsed = Math.max(0, Math.ceil((today - startDate) / msPerDay))`. -/
def daysElapsedOf (p : Project) (today : ℤ) : ℤ :=
  max 0 (ceilIntDiv (today - p.plannedStartDate) msPerDay)

/-- Modules reported on the calendar day of `d`: the source's
`dayEntries.reduce((sum, e) => sum + e.modules, 0)` where `dayEntries`
filters the sorted entries to those whose ISO date equals that of `d`. -/
def dayModulesOn (sorted : List ProductionEntry) (d : ℤ) : ℚ :=
  sumBy (fun e => e.modules) (sorted.filter (fun e => dayOf e.date == dayOf d))

/-- The chart loop of `calculateForecast` (`for i = 0; i <= min(daysElapsed,
totalDays); i++`), with the running `cumulativeModules` made an explicit
accumulator.  Returns the `actualProgress` and `dates` arrays. -/
def chartLoop (p : Project) (sorted : List ProductionEntry) :
    List ℕ → ℚ → List ℚ × List ℤ
  | [], _ => ([], [])
  | i :: rest, cum =>
    let d := p.plannedStartDate + (i : ℤ) * msPerDay
    let cum2 := cum + dayModulesOn sorted d
    let prog := if 0 < p.totalModules then min 100 (cum2 / p.totalModules * 100) else 0
    let tail := chartLoop p sorted rest cum2
    (prog :: tail.1, dayOf d :: tail.2)

/-- The index range `0 .. min(daysElapsed, totalDays)` of the chart loop. -/
def chartIdx (p : Project) (today : ℤ) : List ℕ :=
  List.range ((min (daysElapsedOf p today) (totalDaysOf p)).toNat + 1)

/-- The planned-progress loop of the source (`for i = 0; i <= totalDays; i++`,
pushing `(i / totalDays) * 100`). -/
def plannedProgressList (p : Project) : List ℚ :=
  (List.range ((totalDaysOf p).toNat + 1)).map
    (fun (i : ℕ) => ((i : ℚ) / ((totalDaysOf p : ℤ) : ℚ)) * 100)

/-- The source's `totalInstalled`: sums over all entries. -/
def totalInstalled (es : List ProductionEntry) : Tally :=
  ⟨sumBy (fun e => e.piles) es,
   sumBy (fun e => e.rackingTables) es,
   sumBy (fun e => e.modules) es⟩

/-- The source's `remainingWork`: per-category `Math.max(0, target - installed)`. -/
def remainingWorkOf (p : Project) (es : List ProductionEntry) : Tally :=
  ⟨max 0 (p.totalPiles - (totalInstalled es).piles),
   max 0 (p.totalRackingTables - (totalInstalled es).racking),
   max 0 (p.totalModules - (totalInstalled es).modules)⟩

/-- The source's `recentEntries = sortedEntries.slice(-7)`. -/
def recentEntries (es : List ProductionEntry) : List ProductionEntry :=
  let s := sortByDate es
  s.drop (s.length - 7)

/-- The source's `avgDaily`: per-category mean over the recent entries, or
the planned per-day rate when there are none. -/
def avgDailyOf (p : Project) (es : List ProductionEntry) : Tally :=
  let r := recentEntries es
  ⟨if 0 < r.length then sumBy (fun e => e.piles) r / (r.length : ℚ)
     else p.plannedPilesPerDay,
   if 0 < r.length then sumBy (fun e => e.rackingTables) r / (r.length : ℚ)
     else p.plannedRackingPerDay,
   if 0 < r.length then sumBy (fun e => e.modules) r / (r.length : ℚ)
     else p.plannedModulesPerDay⟩

/-- The completion-projection block of `calculateForecast`: returns the
pair `(projectedCompletionDate, daysVariance)`. -/
def projectionOf (p : Project) (es : List ProductionEntry) (today : ℤ) :
    Option ℤ × ℤ :=
  let avgM := (avgDailyOf p es).modules
  let remM := (remainingWorkOf p es).modules
  if 0 < avgM ∧ 0 < remM then
    let daysNeeded : ℤ := ⌈remM / avgM⌉
    let proj := today + daysNeeded * msPerDay
    (some proj, ceilIntDiv (proj - p.plannedEndDate) msPerDay)
  else if remM = 0 then
    (some today, ceilIntDiv (today - p.plannedEndDate) msPerDay)
  else
    (none, 0)

/-- The schedule-health classifier of the source. -/
def healthOf (v : ℤ) : Health :=
  if v ≤ 0 then .green else if v ≤ 7 then .yellow else .red

/-- The source's `calculateForecast(project, productionEntries)` with the
clock read `new Date()` made an explicit `today` parameter. -/
def calculateForecast (p : Project) (es : List ProductionEntry) (today : ℤ) :
    ForecastResult :=
  let chart := chartLoop p (sortByDate es) (chartIdx p today) 0
  let pv := projectionOf p es today
  { plannedProgress := plannedProgressList p
    actualProgress := chart.1
    dates := chart.2
    projectedCompletionDate := pv.1
    daysVariance := pv.2
    scheduleHealth := healthOf pv.2
    remainingWork := remainingWorkOf p es
    averageDailyProduction := avgDailyOf p es }

/-- Result record of `getPercentComplete`. -/
structure PercentComplete where
  piles : ℚ
  racking : ℚ
  modules : ℚ
  overall : ℚ
deriving DecidableEq

/-- Model of `Math.round(x * 10) / 10` of the source; Mathlib's `round`
is `⌊x + 1/2⌋`, exactly the half-up rounding of JS `Math.round`. -/
def jsRound1 (x : ℚ) : ℚ := ((round (x * 10) : ℤ) : ℚ) / 10

/-- The source's `getPercentComplete(project, productionEntries)`. -/
def getPercentComplete (p : Project) (es : List ProductionEntry) :
    PercentComplete :=
  let totals := totalInstalled es
  let pilesPercent := if 0 < p.totalPiles then totals.piles / p.totalPiles * 100 else 0
  let rackingPercent :=
    if 0 < p.totalRackingTables then totals.racking / p.totalRackingTables * 100 else 0
  let modulesPercent :=
    if 0 < p.totalModules then totals.modules / p.totalModules * 100 else 0
  let overall := pilesPercent * 0.15 + rackingPercent * 0.25 + modulesPercent * 0.6
  ⟨jsRound1 pilesPercent, jsRound1 rackingPercent, jsRound1 modulesPercent,
   jsRound1 overall⟩

/-- The `'today' | 'week' | 'month'` period literal type of `getProductionStats`. -/
inductive StatPeriod
  | today
  | week
  | month
deriving DecidableEq

/-- Civil (proleptic Gregorian) date from a day count relative to
1970-01-01, as `(year, month 1..12, day 1..31)`; standard era-based
conversion, matching what JS `Date` getters return in UTC. -/
def civilFromDays (z0 : ℤ) : ℤ × ℤ × ℤ :=
  let z := z0 + 719468
  let era := z.ediv 146097
  let doe := z - era * 146097
  let yoe := (doe - doe.ediv 1460 + doe.ediv 36524 - doe.ediv 146096).ediv 365
  let y := yoe + era * 400
  let doy := doe - (365 * yoe + yoe.ediv 4 - yoe.ediv 100)
  let mp := (5 * doy + 2).ediv 153
  let d := doy - (153 * mp + 2).ediv 5 + 1
  let m := if mp < 10 then mp + 3 else mp - 9
  (if m ≤ 2 then y + 1 else y, m, d)

/-- Day count relative to 1970-01-01 of a civil date `(y, m, d)`; the
formula is affine in `d`, so an out-of-range `d` rolls over into the
following months exactly as JS `Date` field-overflow does. -/
def daysFromCivil (y0 m d : ℤ) : ℤ :=
  let y := if m ≤ 2 then y0 - 1 else y0
  let era := y.ediv 400
  let yoe := y - era * 400
  let doy := (153 * (if 2 < m then m - 3 else m + 9) + 2).ediv 5 + d - 1
  let doe := yoe * 365 + yoe.ediv 4 - yoe.ediv 100 + doy
  era * 146097 + doe - 719468

/-- Model of `d.setMonth(d.getMonth() - 1)` on a timestamp (UTC): step the
civil month back by one keeping the day-of-month and time-of-day, with JS
day-overflow normalization. -/
def monthBack (t : ℤ) : ℤ :=
  let day := t.ediv msPerDay
  let tod := t.emod msPerDay
  let c := civilFromDays day
  let y := c.1
  let m := c.2.1
  let d := c.2.2
  let ym := if m = 1 then (y - 1, (12 : ℤ)) else (y, m - 1)
  daysFromCivil ym.1 ym.2 d * msPerDay + tod

/-- Model of `new Date(getFullYear(), getMonth(), getDate())`: the
timestamp truncated to its civil midnight (UTC). -/
def truncToDay (t : ℤ) : ℤ := t.ediv msPerDay * msPerDay

/-- The source's `getProductionStats(productionEntries, type)` with the
clock read made an explicit `today` parameter. -/
def getProductionStats (es : List ProductionEntry) (period : StatPeriod)
    (today : ℤ) : Tally :=
  let startDate : ℤ :=
    match period with
    | .today => truncToDay today
    | .week => today - 7 * msPerDay
    | .month => monthBack today
  let kept := es.filter (fun e => decide (startDate ≤ e.date))
  ⟨sumBy (fun e => e.piles) kept,
   sumBy (fun e => e.rackingTables) kept,
   sumBy (fun e => e.modules) kept⟩

/-! ### Helper lemmas -/

theorem foldl_add_eq (f : ProductionEntry → ℚ) (a : ℚ) (l : List ProductionEntry) :
    l.foldl (fun s e => s + f e) a = a + (l.map f).sum := by
  induction l generalizing a with
  | nil => simp
  | cons e t ih => simp [ih, add_assoc]

theorem sumBy_eq_sum (f : ProductionEntry → ℚ) (es : List ProductionEntry) :
    sumBy f es = (es.map f).sum := by
  simp [sumBy, foldl_add_eq]

theorem chartLoop_fst_length (p : Project) (sorted : List ProductionEntry)
    (idx : List ℕ) (cum : ℚ) :
    ((chartLoop p sorted idx cum).1).length = idx.length := by
  induction idx generalizing cum with
  | nil => simp [chartLoop]
  | cons i rest ih => simp [chartLoop, ih]

theorem chartLoop_snd_length (p : Project) (sorted : List ProductionEntry)
    (idx : List ℕ) (cum : ℚ) :
    ((chartLoop p sorted idx cum).2).length = idx.length := by
  induction idx generalizing cum with
  | nil => simp [chartLoop]
  | cons i rest ih => simp [chartLoop, ih]

/-! ### Claim C1 -/

/-- Concrete project used in counterexamples: a 10-day plan starting at
epoch day 0 with 1000 modules. -/
def cxProject : Project :=
  ⟨"p1", "Site A", 100, 50, 1000, 0, 10 * msPerDay, 10, 5, 100⟩

/-- A clock reading 5 days into the `cxProject` plan. -/
def cxToday : ℤ := 5 * msPerDay

/-- Claim C1 (counterexample): with 5 of 10 planned days elapsed,
`plannedProgress` does NOT have length `min(daysElapsed, totalDays) + 1`
(it has `totalDays + 1 = 11` elements, against `min + 1 = 6`), so the
three arrays are not parallel arrays of that common length. -/
theorem calculateForecast_parallel_lengths_cx :
    ¬ ((calculateForecast cxProject [] cxToday).plannedProgress.length
        = (min (daysElapsedOf cxProject cxToday) (totalDaysOf cxProject)).toNat + 1) := by
  decide

/-- Claim C1 (amended): `actualProgress` and `dates` are parallel arrays of
equal length `min(daysElapsed, totalDays) + 1`, while `plannedProgress` has
length `totalDays + 1` (these coincide only when `daysElapsed ≥ totalDays`). -/
theorem calculateForecast_array_lengths (p : Project) (es : List ProductionEntry)
    (today : ℤ) :
    (calculateForecast p es today).actualProgress.length
        = (min (daysElapsedOf p today) (totalDaysOf p)).toNat + 1 ∧
    (calculateForecast p es today).dates.length
        = (min (daysElapsedOf p today) (totalDaysOf p)).toNat + 1 ∧
    (calculateForecast p es today).plannedProgress.length
        = (totalDaysOf p).toNat + 1 := by
  refine ⟨?_, ?_, ?_⟩
  · show ((chartLoop p (sortByDate es) (chartIdx p today) 0).1).length = _
    rw [chartLoop_fst_length, chartIdx, List.length_range]
  · show ((chartLoop p (sortByDate es) (chartIdx p today) 0).2).length = _
    rw [chartLoop_snd_length, chartIdx, List.length_range]
  · show (plannedProgressList p).length = _
    simp [plannedProgressList]

/-! ### Claim C4 -/

/-- Claim C4: `scheduleHealth` is `green` when `daysVariance ≤ 0`, `yellow`
when `0 < daysVariance ≤ 7`, and `red` when `daysVariance > 7`. -/
theorem scheduleHealth_classification (p : Project) (es : List ProductionEntry)
    (today : ℤ) :
    (calculateForecast p es today).scheduleHealth =
      (if (calculateForecast p es today).daysVariance ≤ 0 then Health.green
       else if (calculateForecast p es today).daysVariance ≤ 7 then Health.yellow
       else Health.red) := rfl

/-! ### Claim C7 -/

/-- Claim C7: `remainingWork` is `max(0, target − Σ entries)` per category,
the sum ranging over ALL entries (no date restriction: `today` is arbitrary
and entry dates are unconstrained), and is never negative. -/
theorem remainingWork_spec (p : Project) (es : List ProductionEntry) (today : ℤ) :
    (calculateForecast p es today).remainingWork =
      ⟨max 0 (p.totalPiles - (es.map (fun e => e.piles)).sum),
       max 0 (p.totalRackingTables - (es.map (fun e => e.rackingTables)).sum),
       max 0 (p.totalModules - (es.map (fun e => e.modules)).sum)⟩ ∧
    0 ≤ (calculateForecast p es today).remainingWork.piles ∧
    0 ≤ (calculateForecast p es today).remainingWork.racking ∧
    0 ≤ (calculateForecast p es today).remainingWork.modules := by
  refine ⟨?_, le_max_left _ _, le_max_left _ _, le_max_left _ _⟩
  show remainingWorkOf p es = _
  simp [remainingWorkOf, totalInstalled, sumBy_eq_sum]

/-! ### Claim C3 -/

/-- The integer ceiling division used by the model agrees with the real
ceiling of the exact quotient, for the positive divisor `msPerDay`. -/
theorem ceilIntDiv_eq_ceil (a : ℤ) :
    ceilIntDiv a msPerDay = ⌈(a : ℚ) / (msPerDay : ℚ)⌉ := by
  have h1 : ⌊((-a : ℤ) : ℚ) / ((86400000 : ℕ) : ℚ)⌋ = (-a) / ((86400000 : ℕ) : ℤ) :=
    Rat.floor_intCast_div_natCast (-a) 86400000
  have h2 : ((86400000 : ℕ) : ℚ) = (msPerDay : ℚ) := by norm_num [msPerDay]
  have h3 : ((86400000 : ℕ) : ℤ) = msPerDay := by norm_num [msPerDay]
  have h4 : ((-a : ℤ) : ℚ) / (msPerDay : ℚ) = -((a : ℚ) / (msPerDay : ℚ)) := by
    push_cast
    ring
  rw [h2, h3, h4, Int.floor_neg] at h1
  show -((-a).ediv msPerDay) = _
  have h5 : (-a).ediv msPerDay = (-a) / msPerDay := rfl
  rw [h5]
  linarith [h1]

/-- Claim C3: the completion projection is the three-way case split of the
source — extrapolate when there is a positive module rate and positive
remaining modules, project `today` when the module target is already met,
and return `null` with variance `0` otherwise. -/
theorem projection_cases (p : Project) (es : List ProductionEntry) (today : ℤ) :
    ((calculateForecast p es today).projectedCompletionDate,
      (calculateForecast p es today).daysVariance) =
      (if 0 < (calculateForecast p es today).averageDailyProduction.modules ∧
          0 < (calculateForecast p es today).remainingWork.modules then
        (some (today + ⌈(calculateForecast p es today).remainingWork.modules /
              (calculateForecast p es today).averageDailyProduction.modules⌉ * msPerDay),
          ⌈((today + ⌈(calculateForecast p es today).remainingWork.modules /
              (calculateForecast p es today).averageDailyProduction.modules⌉ * msPerDay
              - p.plannedEndDate : ℤ) : ℚ) / (msPerDay : ℚ)⌉)
      else if (calculateForecast p es today).remainingWork.modules = 0 then
        (some today, ⌈((today - p.plannedEndDate : ℤ) : ℚ) / (msPerDay : ℚ)⌉)
      else (none, 0)) := by
  show projectionOf p es today = _
  rw [projectionOf]
  simp only [ceilIntDiv_eq_ceil]
  rfl

/-! ### Claim C5 -/

/-- Arithmetic mean of a list of rationals, with a fallback value for the
empty list, as the spec words the rolling average. -/
def listMean (l : List ℚ) (fallback : ℚ) : ℚ :=
  if l = [] then fallback else l.sum / (l.length : ℚ)

/-- The most recent 7 entries by date order (all of them when fewer than 7
exist), as the spec words the rolling window. -/
def lastSevenByDate (es : List ProductionEntry) : List ProductionEntry :=
  (sortByDate es).drop ((sortByDate es).length - 7)

theorem sumBy_div_eq_listMean (f : ProductionEntry → ℚ)
    (r : List ProductionEntry) (fb : ℚ) :
    (if 0 < r.length then sumBy f r / (r.length : ℚ) else fb)
      = listMean (r.map f) fb := by
  cases r with
  | nil => simp [listMean]
  | cons e t => simp [listMean, sumBy_eq_sum]

/-- Claim C5: `averageDailyProduction` is, per category, the arithmetic
mean over the most recent 7 entries by date order (all entries when fewer
than 7 exist), and for the empty entry list it is exactly the project's
planned per-day rates (the mean of an empty window falls back to them). -/
theorem averageDailyProduction_spec (p : Project) (es : List ProductionEntry)
    (today : ℤ) :
    (calculateForecast p es today).averageDailyProduction =
      ⟨listMean ((lastSevenByDate es).map (fun e => e.piles)) p.plannedPilesPerDay,
       listMean ((lastSevenByDate es).map (fun e => e.rackingTables)) p.plannedRackingPerDay,
       listMean ((lastSevenByDate es).map (fun e => e.modules)) p.plannedModulesPerDay⟩ := by
  show avgDailyOf p es = _
  have hre : recentEntries es = lastSevenByDate es := rfl
  simp only [avgDailyOf, hre, sumBy_div_eq_listMean]

/-! ### Claim C10 -/

/-- Claim C10: when the average daily module rate is `0` and modules remain,
the projection is undefined, `daysVariance` stays `0`, and the schedule is
classified `green`. -/
theorem stalled_project_green (p : Project) (es : List ProductionEntry) (today : ℤ)
    (h1 : (calculateForecast p es today).averageDailyProduction.modules = 0)
    (h2 : 0 < (calculateForecast p es today).remainingWork.modules) :
    (calculateForecast p es today).scheduleHealth = Health.green ∧
    (calculateForecast p es today).daysVariance = 0 := by
  have ha : (avgDailyOf p es).modules = 0 := h1
  have hr : 0 < (remainingWorkOf p es).modules := h2
  have hpv : projectionOf p es today = (none, 0) := by
    rw [projectionOf]
    simp [ha, hr.ne']
  refine ⟨?_, ?_⟩
  · show healthOf (projectionOf p es today).2 = Health.green
    rw [hpv]
    rfl
  · show (projectionOf p es today).2 = 0
    rw [hpv]

/-- Project used for the stalled-project witness: module target 5, planned
rates all zero. -/
def wProject : Project := ⟨"p2", "Site B", 10, 10, 5, 0, 10 * msPerDay, 0, 0, 0⟩

/-- Witness for C10 at a concrete stalled project (no entries, zero planned
module rate, module target 5). -/
theorem stalled_project_green_witness :
    (calculateForecast wProject [] cxToday).scheduleHealth = Health.green ∧
    (calculateForecast wProject [] cxToday).daysVariance = 0 :=
  stalled_project_green wProject [] cxToday rfl
    (show (0 : ℚ) < max 0 (5 - 0) by simp)

/-! ### Claim C2 -/

/-- Every element of the list is zero. -/
def allZero (l : List ℚ) : Prop := ∀ x ∈ l, x = 0

theorem chartLoop_fst_zero (p : Project) (sorted : List ProductionEntry)
    (h : ¬ 0 < p.totalModules) :
    ∀ (idx : List ℕ) (cum : ℚ), allZero (chartLoop p sorted idx cum).1 := by
  intro idx
  induction idx with
  | nil =>
    intro cum x hx
    simp [chartLoop] at hx
  | cons i rest ih =>
    intro cum x hx
    simp only [chartLoop, if_neg h] at hx
    rcases List.mem_cons.mp hx with h0 | h0
    · exact h0
    · exact ih _ x h0

/-- Project with a zero module target but a nonzero pile target, used to
refute the claim that ALL percentages are zero when `totalModules == 0`. -/
def cx2Project : Project := ⟨"p3", "Site C", 1, 0, 0, 0, 10 * msPerDay, 1, 0, 0⟩

/-- One entry reporting a single pile. -/
def cx2Entries : List ProductionEntry := [⟨0, 1, 0, 0⟩]

/-- Claim C2 (counterexample): a project with `totalModules == 0` but
`totalPiles == 1` and one entry reporting one pile yields a piles
percentage of `100`, not `0`, so not every percentage returned by
`getPercentComplete` is zero. -/
theorem zero_modules_target_cx :
    cx2Project.totalModules = 0 ∧
    ¬ ((getPercentComplete cx2Project cx2Entries).piles = 0) := by
  refine ⟨rfl, ?_⟩
  norm_num [getPercentComplete, totalInstalled, sumBy, jsRound1, round_eq,
    cx2Project, cx2Entries]

/-- Claim C2 (amended): with `totalModules == 0`, the modules percentage of
`getPercentComplete` is `0` and every element of `actualProgress` is `0`
(both guard the division, so no division by zero occurs); the piles and
racking percentages are governed by their own targets and need not be `0`. -/
theorem zero_modules_target_zero_progress (p : Project) (es : List ProductionEntry)
    (today : ℤ) (h : p.totalModules = 0) :
    (getPercentComplete p es).modules = 0 ∧
    allZero (calculateForecast p es today).actualProgress := by
  constructor
  · simp [getPercentComplete, h, jsRound1]
  · show allZero (chartLoop p (sortByDate es) (chartIdx p today) 0).1
    exact chartLoop_fst_zero p _ (by rw [h]; exact lt_irrefl 0) _ _

/-- Witness for the amended C2 at a concrete project with a zero module
target (and a nonzero pile target, showing the amendment is not vacuous). -/
theorem zero_modules_target_zero_progress_witness :
    (getPercentComplete cx2Project cx2Entries).modules = 0 ∧
    allZero (calculateForecast cx2Project cx2Entries cxToday).actualProgress :=
  zero_modules_target_zero_progress cx2Project cx2Entries cxToday rfl

/-! ### Claim C6 -/

/-- Every element of the list lies in the interval `[0, 100]`. -/
def allWithin (l : List ℚ) : Prop := ∀ x ∈ l, 0 ≤ x ∧ x ≤ 100

theorem mem_insertByDate (a e : ProductionEntry) (l : List ProductionEntry) :
    a ∈ insertByDate e l ↔ a = e ∨ a ∈ l := by
  induction l with
  | nil => simp [insertByDate]
  | cons f rest ih =>
    rw [insertByDate]
    by_cases hle : e.date ≤ f.date
    · simp [hle]
    · simp only [if_neg hle, List.mem_cons, ih]
      tauto

theorem mem_sortByDate (a : ProductionEntry) (es : List ProductionEntry) :
    a ∈ sortByDate es ↔ a ∈ es := by
  induction es with
  | nil => simp [sortByDate]
  | cons e rest ih => simp [sortByDate, mem_insertByDate, ih]

theorem dayModulesOn_nonneg (sorted : List ProductionEntry)
    (h : ∀ e ∈ sorted, 0 ≤ e.modules) (d : ℤ) :
    0 ≤ dayModulesOn sorted d := by
  rw [dayModulesOn, sumBy_eq_sum]
  apply List.sum_nonneg
  intro x hx
  obtain ⟨e, he, rfl⟩ := List.mem_map.mp hx
  exact h e (List.mem_of_mem_filter he)

theorem chartLoop_fst_bounded (p : Project) (sorted : List ProductionEntry)
    (h : ∀ e ∈ sorted, 0 ≤ e.modules) :
    ∀ (idx : List ℕ) (cum : ℚ), 0 ≤ cum → allWithin (chartLoop p sorted idx cum).1 := by
  intro idx
  induction idx with
  | nil =>
    intro cum _ x hx
    simp [chartLoop] at hx
  | cons i rest ih =>
    intro cum hcum x hx
    have hday : 0 ≤ dayModulesOn sorted (p.plannedStartDate + (i : ℤ) * msPerDay) :=
      dayModulesOn_nonneg sorted h _
    have hcum2 : 0 ≤ cum + dayModulesOn sorted (p.plannedStartDate + (i : ℤ) * msPerDay) :=
      add_nonneg hcum hday
    simp only [chartLoop] at hx
    rcases List.mem_cons.mp hx with h0 | h0
    · subst h0
      by_cases hT : 0 < p.totalModules
      · rw [if_pos hT]
        refine ⟨le_min (by norm_num) ?_, min_le_left _ _⟩
        exact mul_nonneg (div_nonneg hcum2 hT.le) (by norm_num)
      · rw [if_neg hT]
        norm_num
    · exact ih _ hcum2 x h0

/-- Claim C6: when every per-entry count is non-negative, every element of
`actualProgress` lies in `[0, 100]` (the cumulative curve is clamped above
by `min(100, ·)` and below by the non-negativity of the sums). -/
theorem actualProgress_bounded (p : Project) (es : List ProductionEntry) (today : ℤ)
    (h : ∀ e ∈ es, 0 ≤ e.piles ∧ 0 ≤ e.rackingTables ∧ 0 ≤ e.modules) :
    allWithin (calculateForecast p es today).actualProgress := by
  have hs : ∀ e ∈ sortByDate es, 0 ≤ e.modules := fun e he =>
    (h e ((mem_sortByDate e es).mp he)).2.2
  show allWithin (chartLoop p (sortByDate es) (chartIdx p today) 0).1
  exact chartLoop_fst_bounded p _ hs _ 0 le_rfl

/-- Entries used by the C6 witness: they overshoot the module target, so
the witness also exercises the upper clamp. -/
def w6Entries : List ProductionEntry := [⟨0, 1, 2, 400⟩, ⟨2 * msPerDay, 0, 0, 900⟩]

/-- Witness for C6 at a concrete project and non-negative entries. -/
theorem actualProgress_bounded_witness :
    allWithin (calculateForecast cxProject w6Entries cxToday).actualProgress :=
  actualProgress_bounded cxProject w6Entries cxToday (by decide)

/-! ### Claim C8 -/

/-- Percentage of a total against a target, `0` when the target is not
positive, as the spec words it. -/
def specPct (total target : ℚ) : ℚ :=
  if 0 < target then total / target * 100 else 0

/-- Claim C8: `getPercentComplete` sums each category over the whole entry
list (no date windowing — the entries' dates are unconstrained and unused),
divides by its target (`0` when the target is `0`), multiplies by `100`,
rounds each value to one decimal place (`round(x * 10) / 10`), and weights
`overall = piles% * 0.15 + racking% * 0.25 + modules% * 0.60` before
rounding. -/
theorem getPercentComplete_spec (p : Project) (es : List ProductionEntry) :
    getPercentComplete p es =
      ⟨jsRound1 (specPct ((es.map (fun e => e.piles)).sum) p.totalPiles),
       jsRound1 (specPct ((es.map (fun e => e.rackingTables)).sum) p.totalRackingTables),
       jsRound1 (specPct ((es.map (fun e => e.modules)).sum) p.totalModules),
       jsRound1 (specPct ((es.map (fun e => e.piles)).sum) p.totalPiles * 0.15
         + specPct ((es.map (fun e => e.rackingTables)).sum) p.totalRackingTables * 0.25
         + specPct ((es.map (fun e => e.modules)).sum) p.totalModules * 0.6)⟩ := by
  simp only [getPercentComplete, totalInstalled, specPct, sumBy_eq_sum]

/-! ### Claim C9 -/

/-- The spec's window start: `today` truncated to midnight for `today`,
`today − 7 days` for `week`, `today − 1 calendar month` for `month`. -/
def specWindowStart (period : StatPeriod) (today : ℤ) : ℤ :=
  match period with
  | .today => truncToDay today
  | .week => today - 7 * msPerDay
  | .month => monthBack today

/-- Claim C9: `getProductionStats` sums each category over exactly the
entries with `date ≥ windowStart` — a lower bound only, so entries dated
after `today` are included whenever they pass it. -/
theorem getProductionStats_spec (es : List ProductionEntry) (period : StatPeriod)
    (today : ℤ) :
    getProductionStats es period today =
      ⟨((es.filter (fun e => decide (specWindowStart period today ≤ e.date))).map
          (fun e => e.piles)).sum,
       ((es.filter (fun e => decide (specWindowStart period today ≤ e.date))).map
          (fun e => e.rackingTables)).sum,
       ((es.filter (fun e => decide (specWindowStart period today ≤ e.date))).map
          (fun e => e.modules)).sum⟩ := by
  cases period <;>
    simp only [getProductionStats, specWindowStart, sumBy_eq_sum]
